import Mathlib

/-!
Shallow embedding of the alignment quality scorer of `sa-visualizer`
(file `src/js/alignment-scorer.js`).

JavaScript strings are modelled as `List Char`; numbers that carry scores
or percentages are modelled as `ℚ` (every value the program computes is a
finite decimal, and the claims under study do not depend on binary
floating-point artifacts).  The JavaScript value `NaN`, which arises from
a zero denominator, is modelled by `Option ℚ` with `none` standing for
`NaN`.  A thrown `Error` is modelled by `Except ScorerError`, one
constructor per distinct `throw` site.
-/

deriving instance DecidableEq for Except

namespace AlignmentScorer

/-- The three distinct `throw new Error(...)` sites of the source, keyed by
their message: the pairwise length check, the MSA minimum-record check, and
the up-front MSA uniform-length check. -/
inductive ScorerError where
  | lengthMismatchPair
  | minimumSequences
  | lengthMismatchMSA
deriving DecidableEq

/-- The scoring parameters held by an `AlignmentScorer` instance
(fields of `this`, set in the constructor).  The spec calls `gapPenalty`
the gap-open penalty. -/
structure ScoringParams where
  matchScore : ℚ
  mismatchScore : ℚ
  gapPenalty : ℚ
  gapExtensionPenalty : ℚ
deriving DecidableEq

/-- The DNA defaults assigned in the constructor: +2 / -1 / -2 / -0.5. -/
def defaultParams : ScoringParams :=
  { matchScore := 2
    mismatchScore := -1
    gapPenalty := -2
    gapExtensionPenalty := -1/2 }

/-- The result object of `calculatePairwiseScore`.  `identity` and
`similarity` are `none` when the JavaScript computation yields `NaN`
(zero denominator). -/
structure PairwiseScore where
  score : ℚ
  «matches» : Nat
  mismatches : Nat
  gaps : Nat
  gapRuns : Nat
  identity : Option ℚ
  similarity : Option ℚ
  length : Nat
deriving DecidableEq

/-- `parseFloat(x.toFixed(2))`: round to two decimal places. -/
def round2 (x : ℚ) : ℚ := (round (x * 100) : ℚ) / 100

/-- `(num / den) * 100`, rounded to two decimals; `none` models the `NaN`
produced by a zero denominator (the numerator is `matches`, which is zero
whenever the denominator is zero, so JavaScript yields `0 / 0 = NaN`,
never an infinity). -/
def pctOf (num den : Nat) : Option ℚ :=
  if den = 0 then none else some (round2 ((num : ℚ) / (den : ℚ) * 100))

/-- The mutable loop state of `calculatePairwiseScore`. -/
structure ScanState where
  «matches» : Nat
  mismatches : Nat
  gaps : Nat
  score : ℚ
  gapRuns : Nat
  inGap : Bool
deriving DecidableEq

/-- Loop-state initialisation of `calculatePairwiseScore`. -/
def initScan : ScanState :=
  { «matches» := 0
    mismatches := 0
    gaps := 0
    score := 0
    gapRuns := 0
    inGap := false }

/-- One iteration of the column scan of `calculatePairwiseScore`:
a column is a gap column when either uppercased character is the dash;
entering a gap run charges `gapPenalty` and bumps `gapRuns`, staying in
one charges `gapExtensionPenalty`; otherwise the column is a match or a
mismatch and resets the run state. -/
def scanStep (p : ScoringParams) (st : ScanState) (cs : Char × Char) :
    ScanState :=
  let char1 := cs.1.toUpper
  let char2 := cs.2.toUpper
  if char1 = '-' ∨ char2 = '-' then
    if st.inGap then
      { st with gaps := st.gaps + 1, score := st.score + p.gapExtensionPenalty }
    else
      { st with
          gaps := st.gaps + 1
          score := st.score + p.gapPenalty
          gapRuns := st.gapRuns + 1
          inGap := true }
  else
    if char1 = char2 then
      { st with
          «matches» := st.matches + 1
          score := st.score + p.matchScore
          inGap := false }
    else
      { st with
          mismatches := st.mismatches + 1
          score := st.score + p.mismatchScore
          inGap := false }

/-- The body of `calculatePairwiseScore` after its length guard: the column
scan followed by assembly of the result object.  Only ever applied to
equal-length inputs (`calculatePairwiseScore` and `calculateMSAStats` both
establish that guard first, so the `zip` loses nothing). -/
def scorePair (p : ScoringParams) (seq1 seq2 : List Char) : PairwiseScore :=
  let st := (seq1.zip seq2).foldl (scanStep p) initScan
  { score := st.score
    «matches» := st.matches
    mismatches := st.mismatches
    gaps := st.gaps
    gapRuns := st.gapRuns
    identity := pctOf st.matches (st.matches + st.mismatches + st.gaps)
    similarity := pctOf st.matches (seq1.length - st.gaps)
    length := seq1.length }

/-- `calculatePairwiseScore(seq1, seq2)`: length guard, then the scan. -/
def calculatePairwiseScore (p : ScoringParams) (seq1 seq2 : List Char) :
    Except ScorerError PairwiseScore :=
  if seq1.length ≠ seq2.length then .error .lengthMismatchPair
  else .ok (scorePair p seq1 seq2)

/-- `getQualityColor(identity)`. -/
def getQualityColor (identity : ℚ) : String :=
  if identity ≥ 80 then "#28a745"
  else if identity ≥ 60 then "#ffc107"
  else if identity ≥ 40 then "#fd7e14"
  else "#dc3545"

/-- `getQualityLabel(identity)`. -/
def getQualityLabel (identity : ℚ) : String :=
  if identity ≥ 80 then "Excellent"
  else if identity ≥ 60 then "Good"
  else if identity ≥ 40 then "Fair"
  else "Poor"

/-- The argument object of `setParameters`: each field is either supplied
(`some`) or `undefined` (`none`). -/
structure ParamUpdate where
  matchScore : Option ℚ := none
  mismatchScore : Option ℚ := none
  gapPenalty : Option ℚ := none
  gapExtensionPenalty : Option ℚ := none
deriving DecidableEq

/-- `setParameters(params)`: each field of `this` is overwritten exactly
when the corresponding field of `params` is not `undefined`. -/
def setParameters (s : ScoringParams) (u : ParamUpdate) : ScoringParams :=
  let s1 := match u.matchScore with
    | some v => { s with matchScore := v }
    | none => s
  let s2 := match u.mismatchScore with
    | some v => { s1 with mismatchScore := v }
    | none => s1
  let s3 := match u.gapPenalty with
    | some v => { s2 with gapPenalty := v }
    | none => s2
  match u.gapExtensionPenalty with
    | some v => { s3 with gapExtensionPenalty := v }
    | none => s3

/-- A record `{id, sequence}` produced by `parseFASTA`. -/
structure SeqRecord where
  id : List Char
  sequence : List Char
deriving DecidableEq

/-- The record used as the (never reached) default of `headD` and `getD`
below: those accesses are guarded by the length checks of the source. -/
def emptyRecord : SeqRecord := { id := [], sequence := [] }

/-- JavaScript `line.trim()`: strip whitespace from both ends. -/
def jsTrim (s : List Char) : List Char :=
  ((s.dropWhile Char.isWhitespace).reverse.dropWhile Char.isWhitespace).reverse

/-- JavaScript `line.startsWith(">")` on a character list. -/
def isHeaderLine : List Char → Bool
  | [] => false
  | c :: _ => c = '>'

/-- The `if (currentSeq) sequences.push(currentSeq)` step of `parseFASTA`:
append the in-progress record, if any. -/
def finalize (seqs : List SeqRecord) (cur : Option SeqRecord) :
    List SeqRecord :=
  match cur with
  | some c => seqs ++ [c]
  | none => seqs

/-- Loop body of `parseFASTA`: trim the line; a header line pushes the
in-progress record and opens a new one whose id is the rest of the line;
a non-empty other line extends the current sequence when a record is in
progress (`line && currentSeq`); anything else is ignored. -/
def parseStep (acc : List SeqRecord × Option SeqRecord) (rawLine : List Char) :
    List SeqRecord × Option SeqRecord :=
  let line := jsTrim rawLine
  if isHeaderLine line then
    (finalize acc.1 acc.2, some { id := line.drop 1, sequence := [] })
  else if line ≠ [] then
    match acc.2 with
    | some c => (acc.1, some { c with sequence := c.sequence ++ line })
    | none => acc
  else acc

/-- `parseFASTA(fastaContent)`: split on the newline character, fold the
loop body over the lines, then push any in-progress record. -/
def parseFASTA (fastaContent : List Char) : List SeqRecord :=
  let lines := fastaContent.splitOn '\n'
  let acc := lines.foldl parseStep ([], none)
  finalize acc.1 acc.2

/-- Delete every whitespace character (used by the reference parser). -/
def stripWS (s : List Char) : List Char :=
  s.filter (fun c => ¬ c.isWhitespace)

/-- Reference loop body written from the spec wording: a header line starts
a new record; every other line contributes its content with whitespace
removed to the current record, if one exists. -/
def specParseStep (acc : List SeqRecord × Option SeqRecord)
    (rawLine : List Char) : List SeqRecord × Option SeqRecord :=
  let line := jsTrim rawLine
  if isHeaderLine line then
    (finalize acc.1 acc.2, some { id := line.drop 1, sequence := [] })
  else
    match acc.2 with
    | some c => (acc.1, some { c with sequence := c.sequence ++ stripWS rawLine })
    | none => acc

/-- Reference parser following the spec sentence: one record per header
line, each sequence the concatenation of its non-header lines with
whitespace removed. -/
def specParseFASTA (fastaContent : List Char) : List SeqRecord :=
  let lines := fastaContent.splitOn '\n'
  let acc := lines.foldl specParseStep ([], none)
  finalize acc.1 acc.2

/-- Number of header lines of the input (after per-line trimming). -/
def headerCount (fastaContent : List Char) : Nat :=
  (fastaContent.splitOn '\n').countP (fun l => isHeaderLine (jsTrim l))

/-- Well-formed FASTA: every non-header line carries no interior
whitespace, so removing all whitespace from it is the same as trimming
its ends. -/
def wellFormedFASTA (fastaContent : List Char) : Bool :=
  (fastaContent.splitOn '\n').all
    (fun line => isHeaderLine (jsTrim line) || stripWS line == jsTrim line)

/-- The uppercased characters of column `pos` across all records
(`sequences.map((seq) => seq.sequence[pos].toUpperCase())`). -/
def columnChars (sequences : List SeqRecord) (pos : Nat) : List Char :=
  sequences.map (fun s => (s.sequence.getD pos ' ').toUpper)

/-- The conservation test of `calculateMSAStats` for one column: build the
set of distinct non-gap characters (`new Set(chars.filter(c => c != "-"))`,
modelled by `dedup`, of which only size and membership are used) and
require size one and no dash member. -/
def isConservedColumn (sequences : List SeqRecord) (pos : Nat) : Bool :=
  let uniqueChars := ((columnChars sequences pos).filter (fun c => c ≠ '-')).dedup
  uniqueChars.length == 1 && !uniqueChars.contains '-'

/-- The index pairs visited by the nested loops of `calculateMSAStats`:
`i` from `0` to `n-1`, `j` from `i+1` to `n-1`. -/
def pairIndices (n : Nat) : List (Nat × Nat) :=
  (List.range n).flatMap
    (fun i => (List.range' (i + 1) (n - (i + 1))).map (fun j => (i, j)))

/-- `reduce((sum, x) => sum + x, 0)` over values that may be `NaN`
(`none`), which `+` propagates. -/
def optSum (l : List (Option ℚ)) : Option ℚ :=
  l.foldl
    (fun acc o =>
      match acc, o with
      | some a, some b => some (a + b)
      | _, _ => none)
    (some 0)

/-- The result object of `calculateMSAStats`.  `conservation` and
`averageIdentity` are `none` when JavaScript would yield `NaN`. -/
structure MSAStats where
  numSequences : Nat
  alignmentLength : Nat
  conservedPositions : Nat
  conservation : Option ℚ
  averageScore : ℚ
  averageIdentity : Option ℚ
  pairwiseScores : List PairwiseScore
  totalPairs : Nat
deriving DecidableEq

/-- `calculateMSAStats(sequences)`: the minimum-record check, the up-front
uniform-length check, column conservation, the ordered pairwise loop, and
the aggregate averages.  The pairwise loop calls `scorePair` directly: the
uniform-length guard has already ruled out the throwing branch of
`calculatePairwiseScore`. -/
def calculateMSAStats (p : ScoringParams) (sequences : List SeqRecord) :
    Except ScorerError MSAStats :=
  if sequences.length < 2 then .error .minimumSequences
  else
    let alignmentLength := (sequences.headD emptyRecord).sequence.length
    if sequences.any (fun s => s.sequence.length ≠ alignmentLength) then
      .error .lengthMismatchMSA
    else
      let numSequences := sequences.length
      let conservedPositions :=
        (List.range alignmentLength).countP
          (fun pos => isConservedColumn sequences pos)
      let pairwiseScores :=
        (pairIndices numSequences).map
          (fun ij => scorePair p (sequences.getD ij.1 emptyRecord).sequence
            (sequences.getD ij.2 emptyRecord).sequence)
      let totalScore := (pairwiseScores.map PairwiseScore.score).sum
      let conservation : Option ℚ :=
        if alignmentLength = 0 then none
        else some (round2 ((conservedPositions : ℚ) / (alignmentLength : ℚ) * 100))
      .ok
        { numSequences := numSequences
          alignmentLength := alignmentLength
          conservedPositions := conservedPositions
          conservation := conservation
          averageScore := round2 (totalScore / (pairwiseScores.length : ℚ))
          averageIdentity :=
            (optSum (pairwiseScores.map PairwiseScore.identity)).map
              (fun s => round2 (s / (pairwiseScores.length : ℚ)))
          pairwiseScores := pairwiseScores
          totalPairs := pairwiseScores.length }

/-- The result of scoring "AC-T" against "ACGT" with the defaults
(checked below), used to instantiate general theorems. -/
def examplePairResult : PairwiseScore :=
  { score := 4
    «matches» := 3
    mismatches := 0
    gaps := 1
    gapRuns := 1
    identity := some 75
    similarity := some 100
    length := 4 }

/-- A two-record aligned input used to instantiate general theorems. -/
def msaExampleInput : List SeqRecord :=
  [⟨['a'], ['A', 'C']⟩, ⟨['b'], ['A', 'C']⟩]

/-- The aggregate result of `msaExampleInput` (checked below), used to
instantiate general theorems. -/
def msaExampleStats : MSAStats :=
  { numSequences := 2
    alignmentLength := 2
    conservedPositions := 2
    conservation := some 100
    averageScore := 4
    averageIdentity := some 100
    pairwiseScores := [{ score := 4
                         «matches» := 2
                         mismatches := 0
                         gaps := 0
                         gapRuns := 0
                         identity := some 100
                         similarity := some 100
                         length := 2 }]
    totalPairs := 1 }

/-- The result of scoring two empty sequences (checked below), used to
instantiate general theorems. -/
def emptyPairResult : PairwiseScore :=
  { score := 0
    «matches» := 0
    mismatches := 0
    gaps := 0
    gapRuns := 0
    identity := none
    similarity := none
    length := 0 }

end AlignmentScorer

namespace AlignmentScorer

/-- C1: with the default parameters (+2 match, -1 mismatch, -2 gap open,
-0.5 gap extension), scoring "AC-T" against "ACGT" yields gaps = 1,
gapRuns = 1, matches = 3, mismatches = 0, score = 2·3 + (-2) = 4,
identity = 75.00, similarity = 100.00 and length = 4: the one gap column
is charged the gap-open penalty exactly once (gapRuns = 1 and the score
accounts for a single -2). -/
theorem pairwise_default_example :
    calculatePairwiseScore defaultParams "AC-T".data "ACGT".data =
      Except.ok examplePairResult ∧
    examplePairResult.score
      = defaultParams.matchScore * 3 + defaultParams.gapPenalty := by
  constructor
  · simp [calculatePairwiseScore, scorePair, scanStep, initScan, pctOf,
      round2, defaultParams, examplePairResult]
    norm_num
  · simp [examplePairResult, defaultParams]
    norm_num

/-- C4: the pairwise scorer rejects inputs of unequal length with the
length-mismatch error; an `Except.error` result carries no
`PairwiseScore`, so no partial result is produced. -/
theorem pairwise_length_guard (p : ScoringParams) (seq1 seq2 : List Char)
    (h : seq1.length ≠ seq2.length) :
    calculatePairwiseScore p seq1 seq2 = .error .lengthMismatchPair := by
  simp [calculatePairwiseScore, h]

/-- Witness for C4 at the concrete pair "A" and "". -/
theorem pairwise_length_guard_witness :
    "A".data.length ≠ ([] : List Char).length ∧
    calculatePairwiseScore defaultParams "A".data []
      = .error .lengthMismatchPair :=
  ⟨by decide, pairwise_length_guard defaultParams "A".data [] (by decide)⟩

/-- C8: the quality classifier is total on rational percentages with
inclusive lower bounds: ≥ 80 is Excellent/green, [60, 80) is Good/yellow,
[40, 60) is Fair/orange, below 40 is Poor/red. -/
theorem quality_tiers (x : ℚ) :
    (80 ≤ x → getQualityLabel x = "Excellent" ∧ getQualityColor x = "#28a745") ∧
    (60 ≤ x → x < 80 → getQualityLabel x = "Good" ∧ getQualityColor x = "#ffc107") ∧
    (40 ≤ x → x < 60 → getQualityLabel x = "Fair" ∧ getQualityColor x = "#fd7e14") ∧
    (x < 40 → getQualityLabel x = "Poor" ∧ getQualityColor x = "#dc3545") := by
  refine ⟨fun h => ?_, fun h1 h2 => ?_, fun h1 h2 => ?_, fun h => ?_⟩ <;>
    simp only [getQualityLabel, getQualityColor] <;>
    split_ifs <;> first | exact ⟨rfl, rfl⟩ | linarith

/-- Witness for C8 at 80, 60, 40 and 10: each boundary maps to the higher
tier. -/
theorem quality_tiers_witness :
    (getQualityLabel 80 = "Excellent" ∧ getQualityColor 80 = "#28a745") ∧
    (getQualityLabel 60 = "Good" ∧ getQualityColor 60 = "#ffc107") ∧
    (getQualityLabel 40 = "Fair" ∧ getQualityColor 40 = "#fd7e14") ∧
    (getQualityLabel 10 = "Poor" ∧ getQualityColor 10 = "#dc3545") :=
  ⟨(quality_tiers 80).1 (by norm_num),
   (quality_tiers 60).2.1 (by norm_num) (by norm_num),
   (quality_tiers 40).2.2.1 (by norm_num) (by norm_num),
   (quality_tiers 10).2.2.2 (by norm_num)⟩

/-- C9: the configuration merge updates exactly the supplied fields -
each field of the result is the supplied value when present and the
previous value when absent - and a fresh instance starts from the DNA
defaults +2 / -1 / -2 / -0.5. -/
theorem setParameters_merge (s : ScoringParams) (u : ParamUpdate) :
    (setParameters s u).matchScore = u.matchScore.getD s.matchScore ∧
    (setParameters s u).mismatchScore = u.mismatchScore.getD s.mismatchScore ∧
    (setParameters s u).gapPenalty = u.gapPenalty.getD s.gapPenalty ∧
    (setParameters s u).gapExtensionPenalty
      = u.gapExtensionPenalty.getD s.gapExtensionPenalty ∧
    defaultParams
      = { matchScore := 2, mismatchScore := -1, gapPenalty := -2, gapExtensionPenalty := -1/2 } := by
  obtain ⟨m, mm, g, ge⟩ := u
  cases m <;> cases mm <;> cases g <;> cases ge <;>
    simp [setParameters, defaultParams]

end AlignmentScorer

namespace AlignmentScorer

/-- One scan step adds exactly one column to the three counters and
preserves the run-state invariant relating `gapRuns`, `gaps` and
`inGap`. -/
theorem scanStep_inv (p : ScoringParams) (st : ScanState) (c : Char × Char)
    (h1 : st.gapRuns ≤ st.gaps) (h2 : st.gapRuns = 0 ↔ st.gaps = 0)
    (h3 : st.inGap = true → 1 ≤ st.gapRuns) :
    (scanStep p st c).matches + (scanStep p st c).mismatches
        + (scanStep p st c).gaps = st.matches + st.mismatches + st.gaps + 1 ∧
    (scanStep p st c).gapRuns ≤ (scanStep p st c).gaps ∧
    ((scanStep p st c).gapRuns = 0 ↔ (scanStep p st c).gaps = 0) ∧
    ((scanStep p st c).inGap = true → 1 ≤ (scanStep p st c).gapRuns) := by
  unfold scanStep
  by_cases hgap : c.1.toUpper = '-' ∨ c.2.toUpper = '-'
  · rw [if_pos hgap]
    by_cases hin : st.inGap = true
    · rw [if_pos hin]
      have h5 := h3 hin
      exact ⟨by simp <;> omega, by simp <;> omega, by simp <;> omega,
        by simpa using fun _ => h5⟩
    · rw [if_neg hin]
      exact ⟨by simp <;> omega, by simp <;> omega, by simp <;> omega,
        by simp <;> omega⟩
  · rw [if_neg hgap]
    by_cases heq : c.1.toUpper = c.2.toUpper
    · rw [if_pos heq]
      exact ⟨by simp <;> omega, by simpa using h1, by simpa using h2, by simp⟩
    · rw [if_neg heq]
      exact ⟨by simp <;> omega, by simpa using h1, by simpa using h2, by simp⟩

/-- Folding the scan over any column list: the counters sum grows by the
number of columns and the run-state invariant is preserved. -/
theorem scan_fold_inv (p : ScoringParams) :
    ∀ (cs : List (Char × Char)) (st : ScanState),
      st.gapRuns ≤ st.gaps → (st.gapRuns = 0 ↔ st.gaps = 0) →
      (st.inGap = true → 1 ≤ st.gapRuns) →
      ((cs.foldl (scanStep p) st).matches
          + (cs.foldl (scanStep p) st).mismatches
          + (cs.foldl (scanStep p) st).gaps
        = st.matches + st.mismatches + st.gaps + cs.length) ∧
      (cs.foldl (scanStep p) st).gapRuns ≤ (cs.foldl (scanStep p) st).gaps ∧
      ((cs.foldl (scanStep p) st).gapRuns = 0
          ↔ (cs.foldl (scanStep p) st).gaps = 0) ∧
      ((cs.foldl (scanStep p) st).inGap = true
          → 1 ≤ (cs.foldl (scanStep p) st).gapRuns)
  | [], st, h1, h2, h3 => by simpa using ⟨h1, h2, h3⟩
  | c :: rest, st, h1, h2, h3 => by
    obtain ⟨hsum, ha, hb, hc⟩ := scanStep_inv p st c h1 h2 h3
    obtain ⟨hsum2, ha2, hb2, hc2⟩ :=
      scan_fold_inv p rest (scanStep p st c) ha hb hc
    simp only [List.foldl_cons]
    exact ⟨by rw [hsum2, hsum]; simp; omega, ha2, hb2, hc2⟩

/-- The counters of `scorePair`: matches, mismatches and gaps partition
the scanned columns, and gap runs are bounded by gap columns and vanish
together with them. -/
theorem scorePair_counts (p : ScoringParams) (seq1 seq2 : List Char) :
    (scorePair p seq1 seq2).matches + (scorePair p seq1 seq2).mismatches
        + (scorePair p seq1 seq2).gaps = min seq1.length seq2.length ∧
    (scorePair p seq1 seq2).gapRuns ≤ (scorePair p seq1 seq2).gaps ∧
    ((scorePair p seq1 seq2).gapRuns = 0 ↔ (scorePair p seq1 seq2).gaps = 0) := by
  obtain ⟨hsum, ha, hb, -⟩ := scan_fold_inv p (seq1.zip seq2) initScan
    (by simp [initScan]) (by simp [initScan]) (by simp [initScan])
  refine ⟨?_, by simpa [scorePair] using ha, by simpa [scorePair] using hb⟩
  have hz : (seq1.zip seq2).length = min seq1.length seq2.length :=
    List.length_zip ..
  simp only [scorePair]
  rw [hsum]
  simp [initScan, hz]

/-- C10: every successful pairwise score satisfies
matches + mismatches + gaps = length, with length the common input
length, gapRuns ≤ gaps, and gapRuns = 0 exactly when gaps = 0. -/
theorem pairwise_counts (p : ScoringParams) (seq1 seq2 : List Char)
    (ps : PairwiseScore)
    (h : calculatePairwiseScore p seq1 seq2 = Except.ok ps) :
    ps.matches + ps.mismatches + ps.gaps = ps.length ∧
    ps.length = seq1.length ∧ ps.length = seq2.length ∧
    ps.gapRuns ≤ ps.gaps ∧ (ps.gapRuns = 0 ↔ ps.gaps = 0) := by
  by_cases hlen : seq1.length ≠ seq2.length
  · rw [calculatePairwiseScore, if_pos hlen] at h
    exact absurd h (by simp)
  · rw [calculatePairwiseScore, if_neg hlen] at h
    have hps : scorePair p seq1 seq2 = ps := Except.ok.inj h
    have hle : seq1.length = seq2.length := not_not.mp hlen
    obtain ⟨hsum, ha, hb⟩ := scorePair_counts p seq1 seq2
    have hlen2 : (scorePair p seq1 seq2).length = seq1.length := by
      simp [scorePair]
    subst hps
    refine ⟨?_, hlen2, by rw [hlen2, hle], ha, hb⟩
    rw [hsum, hlen2, ← hle, min_self]

/-- Witness for C10 at the defaults on "AC-T" and "ACGT". -/
theorem pairwise_counts_witness :
    calculatePairwiseScore defaultParams "AC-T".data "ACGT".data
      = Except.ok examplePairResult ∧
    (examplePairResult.matches + examplePairResult.mismatches
        + examplePairResult.gaps = examplePairResult.length ∧
      examplePairResult.length = "AC-T".data.length ∧
      examplePairResult.length = "ACGT".data.length ∧
      examplePairResult.gapRuns ≤ examplePairResult.gaps ∧
      (examplePairResult.gapRuns = 0 ↔ examplePairResult.gaps = 0)) := by
  have h : calculatePairwiseScore defaultParams "AC-T".data "ACGT".data
      = Except.ok examplePairResult := by
    simp [calculatePairwiseScore, scorePair, scanStep, initScan, pctOf,
      round2, defaultParams, examplePairResult]
    norm_num
  exact ⟨h, pairwise_counts defaultParams "AC-T".data "ACGT".data
    examplePairResult h⟩

/-- C3: when a denominator is zero - the alignment has zero columns
(identity and similarity) or consists entirely of gap columns
(similarity) - the successful result carries the explicit not-a-number
value `none` (JavaScript `NaN`) in that field, deterministically, rather
than an ordinary number. -/
theorem pairwise_nan_denominators (p : ScoringParams) (seq1 seq2 : List Char)
    (ps : PairwiseScore)
    (h : calculatePairwiseScore p seq1 seq2 = Except.ok ps) :
    (ps.length = 0 → ps.identity = none ∧ ps.similarity = none) ∧
    (ps.gaps = ps.length → ps.similarity = none) := by
  by_cases hlen : seq1.length ≠ seq2.length
  · rw [calculatePairwiseScore, if_pos hlen] at h
    exact absurd h (by simp)
  · rw [calculatePairwiseScore, if_neg hlen] at h
    have hps : scorePair p seq1 seq2 = ps := Except.ok.inj h
    obtain ⟨hsum, -, -⟩ := scorePair_counts p seq1 seq2
    have hle : seq1.length = seq2.length := not_not.mp hlen
    subst hps
    have hlen2 : (scorePair p seq1 seq2).length = seq1.length := by
      simp [scorePair]
    constructor
    · intro h0
      rw [hlen2] at h0
      have hden : (scorePair p seq1 seq2).matches
          + (scorePair p seq1 seq2).mismatches
          + (scorePair p seq1 seq2).gaps = 0 := by
        rw [hsum, ← hle, h0]; simp
      constructor
      · show pctOf _ _ = none
        simp only [scorePair] at hden ⊢
        rw [pctOf, if_pos hden]
      · show pctOf _ _ = none
        simp only [scorePair] at hden ⊢
        rw [pctOf, if_pos (by omega : seq1.length - _ = 0)]
    · intro hg
      rw [hlen2] at hg
      show pctOf _ _ = none
      simp only [scorePair] at hg ⊢
      rw [pctOf, if_pos (by omega : seq1.length - _ = 0)]

/-- Witness for C3 at the empty alignment, whose identity and similarity
are both `NaN`. -/
theorem pairwise_nan_denominators_witness :
    calculatePairwiseScore defaultParams [] [] = Except.ok emptyPairResult ∧
    ((emptyPairResult.length = 0 →
        emptyPairResult.identity = none ∧ emptyPairResult.similarity = none) ∧
      (emptyPairResult.gaps = emptyPairResult.length →
        emptyPairResult.similarity = none)) := by
  have h : calculatePairwiseScore defaultParams ([] : List Char) []
      = Except.ok emptyPairResult := by
    simp [calculatePairwiseScore, scorePair, scanStep, initScan, pctOf,
      round2, defaultParams, emptyPairResult]
  exact ⟨h, pairwise_nan_denominators defaultParams [] [] emptyPairResult h⟩

end AlignmentScorer

namespace AlignmentScorer

/-- C2: a column of the MSA aggregator counts as conserved exactly when
the set of distinct case-normalized non-gap characters of that column has
exactly one member; in particular gaps plus one uniform character is
conserved (second conjunct) and an all-gap column is not (third
conjunct). -/
theorem conserved_column_iff (sequences : List SeqRecord) (pos : Nat) :
    (isConservedColumn sequences pos = true ↔
      ((columnChars sequences pos).filter (fun c => c ≠ '-')).toFinset.card
        = 1) ∧
    isConservedColumn [⟨['x'], ['A', '-']⟩, ⟨['y'], ['A', 'A']⟩] 1 = true ∧
    isConservedColumn [⟨['x'], ['A', '-']⟩, ⟨['y'], ['C', '-']⟩] 1 = false := by
  refine ⟨?_, by decide, by decide⟩
  rw [List.card_toFinset]
  simp only [isConservedColumn]
  have hnc :
      (((columnChars sequences pos).filter (fun c => c ≠ '-')).dedup).contains
        '-' = false := by
    by_cases hm :
        '-' ∈ ((columnChars sequences pos).filter (fun c => c ≠ '-')).dedup
    · exfalso
      rw [List.mem_dedup] at hm
      have := List.of_mem_filter hm
      simp at this
    · simpa using hm
  rw [hnc]
  simp

end AlignmentScorer

namespace AlignmentScorer

/-- On a line without interior whitespace, the parser loop body and the
reference loop body agree. -/
theorem parseStep_eq_specStep (rawLine : List Char)
    (h : isHeaderLine (jsTrim rawLine) = false → stripWS rawLine = jsTrim rawLine)
    (acc : List SeqRecord × Option SeqRecord) :
    parseStep acc rawLine = specParseStep acc rawLine := by
  unfold parseStep specParseStep
  by_cases hh : isHeaderLine (jsTrim rawLine) = true
  · rw [if_pos hh, if_pos hh]
  · have hh' : isHeaderLine (jsTrim rawLine) = false := by simpa using hh
    have hws := h hh'
    rw [if_neg hh, if_neg hh]
    by_cases hne : jsTrim rawLine ≠ []
    · rw [if_pos hne, hws]
    · rw [if_neg hne]
      have he : jsTrim rawLine = [] := not_not.mp hne
      rw [hws, he]
      cases hcur : acc.2 with
      | none => rfl
      | some c => simp [← hcur]
  
/-- After folding the parser loop from any starting accumulator, the
number of finalized records grows by exactly the number of header
lines consumed. -/
theorem parse_fold_length :
    ∀ (lines : List (List Char)) (seqs : List SeqRecord)
      (cur : Option SeqRecord),
      (finalize (lines.foldl parseStep (seqs, cur)).1
          (lines.foldl parseStep (seqs, cur)).2).length
        = (finalize seqs cur).length
          + lines.countP (fun l => isHeaderLine (jsTrim l))
  | [], seqs, cur => by simp
  | line :: rest, seqs, cur => by
    rw [List.foldl_cons, List.countP_cons]
    have key := parse_fold_length rest (parseStep (seqs, cur) line).1
      (parseStep (seqs, cur) line).2
    simp only [Prod.mk.eta] at key
    rw [key]
    have step : (finalize (parseStep (seqs, cur) line).1
          (parseStep (seqs, cur) line).2).length
        = (finalize seqs cur).length
          + (if isHeaderLine (jsTrim line) = true then 1 else 0) := by
      unfold parseStep
      by_cases hh : isHeaderLine (jsTrim line) = true
      · rw [if_pos hh, if_pos hh]
        simp [finalize]
      · rw [if_neg hh, if_neg hh]
        by_cases hne : jsTrim line ≠ []
        · rw [if_pos hne]
          cases hcur : cur <;> simp [finalize, ← hcur]
        · rw [if_neg hne]
          simp
    rw [step]
    by_cases hh : isHeaderLine (jsTrim line) = true <;> simp [hh] <;> omega

/-- The record count of `parseFASTA` equals the header-line count,
unconditionally. -/
theorem parseFASTA_length (fastaContent : List Char) :
    (parseFASTA fastaContent).length = headerCount fastaContent := by
  unfold parseFASTA headerCount
  have h := parse_fold_length (fastaContent.splitOn '\n') [] none
  simpa [finalize] using h

/-- C7: on well-formed FASTA input the parser agrees with the reference
parser written from the spec (one record per header line, in input
order, each sequence the whitespace-free concatenation of its non-header
lines); the record count equals the header-line count; and an input with
no header lines yields the empty list. -/
theorem parseFASTA_spec (fastaContent : List Char)
    (h : wellFormedFASTA fastaContent = true) :
    parseFASTA fastaContent = specParseFASTA fastaContent ∧
    (parseFASTA fastaContent).length = headerCount fastaContent ∧
    (headerCount fastaContent = 0 → parseFASTA fastaContent = []) := by
  refine ⟨?_, parseFASTA_length fastaContent, fun h0 => ?_⟩
  · simp only [parseFASTA, specParseFASTA]
    have hfold : (fastaContent.splitOn '\n').foldl parseStep ([], none)
        = (fastaContent.splitOn '\n').foldl specParseStep ([], none) := by
      apply List.foldl_ext
      intro acc line hline
      apply parseStep_eq_specStep
      intro hnh
      have hl := List.all_eq_true.mp h line hline
      simp only [hnh, Bool.false_or] at hl
      exact beq_iff_eq.mp hl
    rw [hfold]
  · have hlen := parseFASTA_length fastaContent
    rw [h0] at hlen
    exact List.length_eq_zero.mp hlen

/-- Witness for C7 on a two-record input with a blank line and a split
sequence. -/
theorem parseFASTA_spec_witness :
    wellFormedFASTA ">s1\nAC\nGT\n>s2\n\nTT".data = true ∧
    (parseFASTA ">s1\nAC\nGT\n>s2\n\nTT".data
        = specParseFASTA ">s1\nAC\nGT\n>s2\n\nTT".data ∧
      (parseFASTA ">s1\nAC\nGT\n>s2\n\nTT".data).length
        = headerCount ">s1\nAC\nGT\n>s2\n\nTT".data ∧
      (headerCount ">s1\nAC\nGT\n>s2\n\nTT".data = 0 →
        parseFASTA ">s1\nAC\nGT\n>s2\n\nTT".data = [])) :=
  ⟨by decide, parseFASTA_spec _ (by decide)⟩

end AlignmentScorer

namespace AlignmentScorer

/-- C5: the MSA aggregator fails with the minimum-sequences error on
fewer than 2 records, and with the MSA-specific up-front length-mismatch
error (thrown by the uniform-length loop that precedes all pairwise
scoring, not by the pairwise scorer) whenever some record differs in
length from the first. -/
theorem msa_preconditions (p : ScoringParams) (sequences : List SeqRecord) :
    (sequences.length < 2 →
      calculateMSAStats p sequences = .error .minimumSequences) ∧
    (2 ≤ sequences.length →
      (∃ s ∈ sequences,
        s.sequence.length ≠ (sequences.headD emptyRecord).sequence.length) →
      calculateMSAStats p sequences = .error .lengthMismatchMSA) := by
  constructor
  · intro h
    simp only [calculateMSAStats]
    rw [if_pos h]
  · intro h2 hex
    have hlt : ¬ sequences.length < 2 := by omega
    have hany : sequences.any
        (fun s => s.sequence.length
          ≠ (sequences.headD emptyRecord).sequence.length) = true := by
      rw [List.any_eq_true]
      obtain ⟨s, hs, hne⟩ := hex
      exact ⟨s, hs, by simpa using hne⟩
    simp only [calculateMSAStats]
    rw [if_neg hlt, if_pos hany]

/-- Witness for C5 on a one-record list and on a two-record list of
unequal lengths. -/
theorem msa_preconditions_witness :
    (([⟨['a'], ['A']⟩] : List SeqRecord).length < 2 ∧
      calculateMSAStats defaultParams [⟨['a'], ['A']⟩]
        = .error .minimumSequences) ∧
    (2 ≤ ([⟨['a'], ['A', 'C']⟩, ⟨['b'], ['A']⟩] : List SeqRecord).length ∧
      calculateMSAStats defaultParams [⟨['a'], ['A', 'C']⟩, ⟨['b'], ['A']⟩]
        = .error .lengthMismatchMSA) :=
  ⟨⟨by decide, (msa_preconditions defaultParams [⟨['a'], ['A']⟩]).1 (by decide)⟩,
   ⟨by decide, (msa_preconditions defaultParams
      [⟨['a'], ['A', 'C']⟩, ⟨['b'], ['A']⟩]).2 (by decide)
      ⟨⟨['b'], ['A']⟩, by decide, by decide⟩⟩⟩

end AlignmentScorer

namespace AlignmentScorer

/-- A flatMap is pairwise for `R` when the outer list is pairwise for the
lifted block relation and every block is pairwise for `R`. -/
theorem pairwise_flatMap_of {α β : Type} (R : β → β → Prop) (f : α → List β) :
    ∀ (l : List α), List.Pairwise (fun a b => ∀ x ∈ f a, ∀ y ∈ f b, R x y) l →
      (∀ a ∈ l, (f a).Pairwise R) → (l.flatMap f).Pairwise R
  | [], _, _ => by simp
  | a :: l, hp, hin => by
    rw [List.flatMap_cons, List.pairwise_append]
    obtain ⟨hp1, hp2⟩ := List.pairwise_cons.mp hp
    refine ⟨hin a (by simp), pairwise_flatMap_of R f l hp2
      (fun b hb => hin b (by simp [hb])), ?_⟩
    intro x hx y hy
    obtain ⟨b, hb, hyb⟩ := List.mem_flatMap.mp hy
    exact hp1 b hb x hx y hyb

/-- The nested loops visit exactly the index pairs `i < j < n`. -/
theorem mem_pairIndices (n i j : Nat) :
    (i, j) ∈ pairIndices n ↔ i < j ∧ j < n := by
  simp only [pairIndices, List.mem_flatMap, List.mem_map, List.mem_range,
    List.mem_range', Prod.mk.injEq]
  constructor
  · rintro ⟨a, ha, b, ⟨k, hk, hbk⟩, hai, hbj⟩
    omega
  · rintro ⟨hij, hjn⟩
    exact ⟨i, by omega, j, ⟨j - (i + 1), by omega, by omega⟩, rfl, rfl⟩

/-- Reindexing `i ↦ n - (i + 1)` on `range n` reverses it. -/
theorem range_map_rev (n : Nat) :
    (List.range n).map (fun i => n - (i + 1)) = (List.range n).reverse := by
  induction n with
  | zero => simp
  | succ m ih =>
    conv_lhs => rw [List.range_succ_eq_map]
    conv_rhs => rw [List.range_succ]
    rw [List.reverse_append]
    simp only [List.map_cons, Nat.add_sub_cancel, List.map_map,
      List.reverse_cons, List.reverse_nil, List.nil_append,
      List.singleton_append]
    congr 1
    rw [← ih]
    apply List.map_congr_left
    intro a _
    simp only [Function.comp_apply]
    omega

/-- The Gauss sum of `range n`. -/
theorem range_sum_gauss (n : Nat) : (List.range n).sum * 2 = n * (n - 1) := by
  induction n with
  | zero => simp
  | succ m ih =>
    rw [List.range_succ]
    simp only [List.sum_append, List.sum_cons, List.sum_nil]
    cases m with
    | zero => simp
    | succ k =>
      simp only [Nat.add_sub_cancel] at ih ⊢
      have hexp : ((List.range (k + 1)).sum + (k + 1 + 0)) * 2
          = (k + 1) * k + (k + 1) * 2 := by
        rw [Nat.add_zero, Nat.add_mul, ih]
      rw [hexp]
      ring

/-- The loops visit `n * (n - 1) / 2` pairs. -/
theorem pairIndices_length (n : Nat) :
    (pairIndices n).length = n * (n - 1) / 2 := by
  have h1 : (pairIndices n).length
      = ((List.range n).map (fun i => n - (i + 1))).sum := by
    rw [pairIndices, List.length_flatMap]
    congr 1
    simp [Function.comp, List.length_range']
  rw [h1, range_map_rev, List.sum_reverse]
  have h2 := range_sum_gauss n
  omega

/-- The visited pairs are strictly increasing in the lexicographic order:
ascending `i`, then ascending `j`. -/
theorem pairIndices_sorted (n : Nat) :
    List.Pairwise (fun a b : Nat × Nat => a.1 < b.1 ∨ (a.1 = b.1 ∧ a.2 < b.2))
      (pairIndices n) := by
  apply pairwise_flatMap_of
  · apply List.Pairwise.imp ?_ (List.pairwise_lt_range n)
    intro a b hab x hx y hy
    obtain ⟨j1, hj1, hx1⟩ := List.mem_map.mp hx
    obtain ⟨j2, hj2, hy1⟩ := List.mem_map.mp hy
    left
    rw [← hx1, ← hy1]
    exact hab
  · intro a _
    rw [List.pairwise_map]
    apply List.Pairwise.imp ?_ (List.pairwise_lt_range' (a + 1) _ 1)
    intro j1 j2 hj
    right
    exact ⟨rfl, hj⟩

/-- C6: every successful aggregate has `totalPairs = N * (N - 1) / 2`,
a `pairwiseScores` list of exactly that length holding the pairwise
result for every index pair `i < j < N` in strictly ascending `(i, j)`
order (the pair list is lexicographically sorted and contains exactly
those pairs), and each entry is the successful output of the pairwise
scorer on that pair. -/
theorem msa_pair_structure (p : ScoringParams) (sequences : List SeqRecord)
    (stats : MSAStats) (h : calculateMSAStats p sequences = Except.ok stats) :
    stats.totalPairs = sequences.length * (sequences.length - 1) / 2 ∧
    stats.pairwiseScores.length = stats.totalPairs ∧
    stats.pairwiseScores
      = (pairIndices sequences.length).map
          (fun ij => scorePair p (sequences.getD ij.1 emptyRecord).sequence
            (sequences.getD ij.2 emptyRecord).sequence) ∧
    List.Pairwise (fun a b : Nat × Nat => a.1 < b.1 ∨ (a.1 = b.1 ∧ a.2 < b.2))
      (pairIndices sequences.length) ∧
    (∀ i j : Nat,
      (i, j) ∈ pairIndices sequences.length ↔ i < j ∧ j < sequences.length) ∧
    (∀ ij ∈ pairIndices sequences.length,
      calculatePairwiseScore p (sequences.getD ij.1 emptyRecord).sequence
          (sequences.getD ij.2 emptyRecord).sequence
        = Except.ok (scorePair p (sequences.getD ij.1 emptyRecord).sequence
            (sequences.getD ij.2 emptyRecord).sequence)) := by
  by_cases h2 : sequences.length < 2
  · simp only [calculateMSAStats] at h
    rw [if_pos h2] at h
    exact absurd h (by simp)
  · simp only [calculateMSAStats] at h
    rw [if_neg h2] at h
    by_cases hany : sequences.any
        (fun s => s.sequence.length
          ≠ (sequences.headD emptyRecord).sequence.length) = true
    · rw [if_pos hany] at h
      exact absurd h (by simp)
    · rw [if_neg hany] at h
      have hstats := Except.ok.inj h
      subst hstats
      have hall : ∀ s ∈ sequences,
          s.sequence.length = (sequences.headD emptyRecord).sequence.length := by
        intro s hs
        by_contra hne
        exact hany (List.any_eq_true.mpr ⟨s, hs, by simpa using hne⟩)
      refine ⟨?_, rfl, rfl, pairIndices_sorted _,
        fun i j => mem_pairIndices _ i j, ?_⟩
      · show ((pairIndices sequences.length).map _).length = _
        rw [List.length_map, pairIndices_length]
      · intro ij hij
        obtain ⟨i, j⟩ := ij
        obtain ⟨hlt, hn⟩ := (mem_pairIndices _ i j).mp hij
        have hi : sequences.getD i emptyRecord ∈ sequences := by
          rw [List.getD_eq_getElem sequences emptyRecord (by omega)]
          exact List.getElem_mem _
        have hj : sequences.getD j emptyRecord ∈ sequences := by
          rw [List.getD_eq_getElem sequences emptyRecord hn]
          exact List.getElem_mem _
        have e1 := hall _ hi
        have e2 := hall _ hj
        unfold calculatePairwiseScore
        rw [if_neg (not_not_intro (e1.trans e2.symm))]

/-- Witness for C6: the two-record example, whose single pair (0, 1) is
scored in order. -/
theorem msa_pair_structure_witness :
    calculateMSAStats defaultParams msaExampleInput
      = Except.ok msaExampleStats ∧
    (msaExampleStats.totalPairs
        = msaExampleInput.length * (msaExampleInput.length - 1) / 2 ∧
      msaExampleStats.pairwiseScores.length = msaExampleStats.totalPairs ∧
      msaExampleStats.pairwiseScores
        = (pairIndices msaExampleInput.length).map
            (fun ij => scorePair defaultParams
              (msaExampleInput.getD ij.1 emptyRecord).sequence
              (msaExampleInput.getD ij.2 emptyRecord).sequence)) := by
  have h : calculateMSAStats defaultParams msaExampleInput
      = Except.ok msaExampleStats := by
    simp [calculateMSAStats, msaExampleInput, msaExampleStats, pairIndices,
      scorePair, scanStep, initScan, pctOf, round2, defaultParams, optSum,
      isConservedColumn, columnChars, emptyRecord, List.range',
      List.range_succ]
    norm_num
  have hs := msa_pair_structure defaultParams msaExampleInput msaExampleStats h
  exact ⟨h, hs.1, hs.2.1, hs.2.2.1⟩

end AlignmentScorer
